import Mathlib

/-!
Verification of the EnviroWatchRPA enrichment-and-KPI engine (src/transform.py).

The pipeline is embedded shallowly:
- numeric cells are `Option ℚ` (`none` models pandas NaN/null; arithmetic
  comparisons against NaN are False, aggregations skip NaN);
- pre-coercion cells (before `pd.to_numeric(..., errors="coerce")`) are a
  `Value` (`null`, a number, or an arbitrary string);
- dates are canonicalized by `parseDate` to the numeral `y*10000 + m*100 + d`,
  whose equality and order agree with equality and order of the canonical
  ISO `YYYY-MM-DD` strings that the source stores;
- fallible steps return `Except TransformError`, with the error constructors
  named after the spec's error taxonomy (the source raises `KeyError` for a
  missing required column, a pandas parse error for a malformed date, and a
  `TypeError` for numeric aggregation over non-numeric data).
-/

/-! ## Cell values and numeric coercion -/

/-- One cell of a raw (pre-coercion) column: null (NaN/None), a number,
or a non-numeric entry carried as a string. -/
inductive Value where
  | null : Value
  | num (q : ℚ) : Value
  | str (s : String) : Value
deriving DecidableEq

/-- Character is an ASCII digit. -/
def isDigitCh (c : Char) : Bool := 48 ≤ c.toNat && c.toNat ≤ 57

/-- Read a most-significant-first digit string into a natural number;
fails on a non-digit.  The accumulator starts at 0. -/
def digitsToNat (acc : Nat) : List Char → Option Nat
  | [] => some acc
  | c :: cs => if isDigitCh c then digitsToNat (acc * 10 + (c.toNat - 48)) cs else none

/-- Split a character list on a separator character. -/
def splitOnCh (sep : Char) : List Char → List (List Char)
  | [] => [[]]
  | c :: cs =>
    match splitOnCh sep cs with
    | [] => if c = sep then [[], []] else [[c]]
    | h :: t => if c = sep then [] :: h :: t else (c :: h) :: t

/-- Parse a decimal numeral (optional sign, digits, optional fractional part)
into a rational, the way `float()` / `pd.to_numeric` read plain decimal
literals such as "12", "-3.5", ".5", "12.".  Anything else is `none`. -/
def parseNumQ (s : String) : Option ℚ :=
  let core : List Char → Option ℚ := fun cs =>
    match splitOnCh '.' cs with
    | [ip] =>
      if ip.isEmpty then none
      else (digitsToNat 0 ip).map (fun n => (n : ℚ))
    | [ip, fp] =>
      if ip.isEmpty && fp.isEmpty then none
      else
        match digitsToNat 0 (ip ++ fp) with
        | none => none
        | some n => some ((n : ℚ) / (10 ^ fp.length : ℚ))
    | _ => none
  match s.toList with
  | '-' :: rest => (core rest).map (fun q => -q)
  | '+' :: rest => core rest
  | cs => core cs

/-- Elementwise `pd.to_numeric(col, errors="coerce")`: null stays null,
numbers pass through, strings are parsed and become null when unparseable. -/
def toNumeric : Value → Option ℚ
  | .null => none
  | .num q => some q
  | .str s => parseNumQ s

/-- Insert into a ≤-sorted list of rationals. -/
def insLeQ (a : ℚ) : List ℚ → List ℚ
  | [] => [a]
  | b :: bs => if a ≤ b then a :: b :: bs else b :: insLeQ a bs

/-- Sort a list of rationals ascending (insertion sort). -/
def sortQ (l : List ℚ) : List ℚ := l.foldr insLeQ []

/-- Median of a list of rationals, the numpy way: sort, take the middle
element for odd length, the mean of the two middles for even length;
`none` on the empty list (the "median of an all-null column is null" case). -/
def medianQ (l : List ℚ) : Option ℚ :=
  let n := l.length
  if n = 0 then none
  else
    let s := sortQ l
    if n % 2 = 1 then some (s.getD (n / 2) 0)
    else some ((s.getD (n / 2 - 1) 0 + s.getD (n / 2) 0) / 2)

/-- `Series.median()` over a numeric column: nulls are skipped. -/
def medianOpt (l : List (Option ℚ)) : Option ℚ := medianQ (l.filterMap id)

/-- Values of a raw (object-dtype) column as floats, the way
`Series.median()` prepares them: nulls are masked out, numbers kept,
strings converted by `astype("f8")` — a numeric string becomes its value,
a non-numeric string raises `TypeError` (modelled as `none`). -/
def rawFloats : List Value → Option (List ℚ)
  | [] => some []
  | .null :: vs => rawFloats vs
  | .num q :: vs => (rawFloats vs).map (fun t => q :: t)
  | .str s :: vs =>
    match parseNumQ s with
    | some q => (rawFloats vs).map (fun t => q :: t)
    | none => none

/-- `Series.median()` on a raw column (the source computes the
`renewable_share` fill value on the column before coercion): outer `none`
is the `TypeError` raised on a non-numeric string. -/
def medianRaw (l : List Value) : Option (Option ℚ) := (rawFloats l).map medianQ

/-- Arithmetic mean skipping nulls (`groupby(...).agg(... "mean")` and the
body of a rolling-mean window); `none` when no non-null value is present. -/
def meanOpt (l : List (Option ℚ)) : Option ℚ :=
  let vs := l.filterMap id
  if vs.length = 0 then none else some (vs.sum / (vs.length : ℚ))

/-- Python banker's rounding of a rational to the nearest integer
(ties go to the even neighbour). -/
def roundHalfEven (q : ℚ) : ℤ :=
  let f := ⌊q⌋
  let r := q - f
  if r < 1 / 2 then f
  else if 1 / 2 < r then f + 1
  else if f % 2 = 0 then f else f + 1

/-- Python `round(x, 1)`. -/
def roundTo1 (q : ℚ) : ℚ := (roundHalfEven (q * 10) : ℚ) / 10

/-- Convert Celsius to Fahrenheit with rounding (source: `c_to_f`). -/
def c_to_f (celsius : ℚ) : ℚ := roundTo1 (celsius * 9 / 5 + 32)

/-! ## Errors (named after the spec's taxonomy, section 7) -/

/-- Fatal conditions of the engine.  `malformedDate` carries the table name,
row position and offending value; `missingColumn` is the source's
`KeyError` on a missing required column; `typeMismatch` is the `TypeError`
raised by a numeric aggregation over non-numeric data. -/
inductive TransformError where
  | malformedDate (table : String) (row : Nat) (value : String) : TransformError
  | missingColumn (column : String) : TransformError
  | typeMismatch (column : String) : TransformError
deriving DecidableEq

/-! ## Generic column table and the Unit Enricher (source: add_temp_fahrenheit) -/

/-- A dataframe as an ordered list of named columns. -/
structure DataFrame where
  cols : List (String × List Value)
deriving DecidableEq

/-- Column presence test (`name in df.columns`). -/
def DataFrame.hasCol (df : DataFrame) (name : String) : Bool :=
  df.cols.any (fun c => c.1 = name)

/-- Retrieve a column's cells (first column of that name). -/
def DataFrame.getCol (df : DataFrame) (name : String) : List Value :=
  ((df.cols.find? (fun c => c.1 = name)).map Prod.snd).getD []

/-- One cell under `df["temp_c"].apply(c_to_f)`: NaN stays NaN
(`round(nan, 1)` is nan), a number is converted, and a string raises
`TypeError` (string `* 9` repeats it and `/ 5` then fails). -/
def cToFCell : Value → Option Value
  | .null => some .null
  | .num q => some (.num (c_to_f q))
  | .str _ => none

/-- Add a Fahrenheit temperature column (source: `add_temp_fahrenheit`):
raise if `temp_c` is absent, no-op if `temp_f` already exists, otherwise
append `temp_f` derived cellwise from `temp_c`. -/
def add_temp_fahrenheit (df : DataFrame) : Except TransformError DataFrame :=
  if df.hasCol "temp_c" = false then .error (.missingColumn "temp_c")
  else if df.hasCol "temp_f" then .ok df
  else
    match (df.getCol "temp_c").mapM cToFCell with
    | some col => .ok ⟨df.cols ++ [("temp_f", col)]⟩
    | none => .error (.typeMismatch "temp_c")

/-! ## Dates -/

/-- Leap year in the Gregorian calendar. -/
def isLeap (y : Nat) : Bool := y % 4 = 0 && (y % 100 ≠ 0 || y % 400 = 0)

/-- Number of days in a month. -/
def daysInMonth (y m : Nat) : Nat :=
  if m = 2 then (if isLeap y then 29 else 28)
  else if m = 4 || m = 6 || m = 9 || m = 11 then 30
  else 31

/-- Parse an ISO calendar date `YYYY-MM-DD` (month and day may be
unpadded, as pandas accepts) to the order-preserving numeral
`y*10000 + m*100 + d`; `none` when the value is not a calendar date.
This canonical numeral models the `pd.to_datetime(col).dt.date.astype(str)`
round trip of the source: two raw values collide as join keys exactly when
their numerals are equal, and the later `pd.to_datetime` sort in
`compute_kpis` orders dates exactly as the numerals. -/
def parseDate (s : String) : Option Nat :=
  match splitOnCh '-' s.toList with
  | [yp, mp, dp] =>
    if yp.length = 4 && (mp.length = 1 || mp.length = 2) && (dp.length = 1 || dp.length = 2) then
      match digitsToNat 0 yp, digitsToNat 0 mp, digitsToNat 0 dp with
      | some y, some m, some d =>
        if 1 ≤ m && m ≤ 12 && 1 ≤ d && d ≤ daysInMonth y m then
          some (y * 10000 + m * 100 + d)
        else none
      | _, _, _ => none
    else none
  | _ => none

/-! ## Typed input rows (spec section 6) and pipeline stages -/

/-- A raw weather row from the external-fetch collaborator. -/
structure WeatherRow where
  station_id : String
  date : String
  city : Option String
  lat : Value
  lon : Value
  temp_c : Value
  humidity : Value
  precip_mm : Value
deriving DecidableEq

/-- A raw air-quality row from the local-source collaborator. -/
structure AirQualityRow where
  station_id : String
  date : String
  aqi : Value
  co2_ppm : Value
deriving DecidableEq

/-- A raw renewable-share row (reference data). -/
structure RenewRow where
  city : String
  renewable_share : Value
deriving DecidableEq

/-- A weather row after the Normalizer: date canonical, missing city
replaced by "Unknown". -/
structure NormWeatherRow where
  station_id : String
  date : Nat
  city : String
  lat : Value
  lon : Value
  temp_c : Value
  humidity : Value
  precip_mm : Value
deriving DecidableEq

/-- An air-quality row after the Normalizer: date canonical, `aqi` and
`co2_ppm` coerced to numeric. -/
structure NormAQRow where
  station_id : String
  date : Nat
  aqi : Option ℚ
  co2_ppm : Option ℚ
deriving DecidableEq

/-- A row after the first left join (air quality ⟕ weather on
(station_id, date)); weather fields are null when unmatched, and the
city is still nullable. -/
structure Merged1Row where
  station_id : String
  date : Nat
  aqi : Option ℚ
  co2_ppm : Option ℚ
  city : Option String
  lat : Value
  lon : Value
  temp_c : Value
  humidity : Value
  precip_mm : Value
deriving DecidableEq

/-- A row after the city fill and the second left join (⟕ renewable share
on city), still before imputation. -/
structure JoinedRow where
  station_id : String
  date : Nat
  aqi : Option ℚ
  co2_ppm : Option ℚ
  city : String
  lat : Value
  lon : Value
  temp_c : Value
  humidity : Value
  precip_mm : Value
  renewable_share : Value
deriving DecidableEq

/-- A fully enriched row.  `temp_f` is `none` when Fahrenheit output was
not requested (the source then omits the column altogether). -/
structure EnrichedRow where
  station_id : String
  date : Nat
  aqi : Option ℚ
  co2_ppm : Option ℚ
  city : String
  lat : Value
  lon : Value
  temp_c : Option ℚ
  humidity : Option ℚ
  precip_mm : Option ℚ
  renewable_share : Option ℚ
  temp_f : Option ℚ
deriving DecidableEq

/-- Normalizer on the weather table (`pd.to_datetime` raising on the first
unparseable date, then `city.fillna("Unknown")`).  The index argument is
the position of the first row of the remaining list. -/
def normWeatherRows (i : Nat) : List WeatherRow → Except TransformError (List NormWeatherRow)
  | [] => .ok []
  | r :: rs =>
    match parseDate r.date with
    | none => .error (.malformedDate "api" i r.date)
    | some d =>
      (normWeatherRows (i + 1) rs).map
        (fun t => ⟨r.station_id, d, r.city.getD "Unknown", r.lat, r.lon,
                   r.temp_c, r.humidity, r.precip_mm⟩ :: t)

/-- Normalizer on the air-quality table (`pd.to_datetime` raising on the
first unparseable date, then `to_numeric` coercion of `aqi`, `co2_ppm`). -/
def normAQRows (i : Nat) : List AirQualityRow → Except TransformError (List NormAQRow)
  | [] => .ok []
  | r :: rs =>
    match parseDate r.date with
    | none => .error (.malformedDate "aq" i r.date)
    | some d =>
      (normAQRows (i + 1) rs).map
        (fun t => ⟨r.station_id, d, toNumeric r.aqi, toNumeric r.co2_ppm⟩ :: t)

/-- First join, `pd.merge(aq, api, on=["station_id", "date"], how="left")`:
left rows in order, each expanded by its matches in right-table order,
kept with null weather fields when unmatched. -/
def merge1 (aq : List NormAQRow) (api : List NormWeatherRow) : List Merged1Row :=
  (aq.map (fun a =>
    let ms := api.filter (fun w => w.station_id = a.station_id && w.date = a.date)
    if ms.isEmpty then
      [⟨a.station_id, a.date, a.aqi, a.co2_ppm, none, .null, .null, .null, .null, .null⟩]
    else
      ms.map (fun w =>
        ⟨a.station_id, a.date, a.aqi, a.co2_ppm, some w.city, w.lat, w.lon,
         w.temp_c, w.humidity, w.precip_mm⟩))).flatten

/-- City fill (`df["city"].fillna("Unknown")`) followed by the second join,
`pd.merge(df, renew, on="city", how="left")`. -/
def merge2 (rows : List Merged1Row) (renew : List RenewRow) : List JoinedRow :=
  (rows.map (fun r =>
    let c := r.city.getD "Unknown"
    let ms := renew.filter (fun n => n.city = c)
    if ms.isEmpty then
      [⟨r.station_id, r.date, r.aqi, r.co2_ppm, c, r.lat, r.lon,
        r.temp_c, r.humidity, r.precip_mm, .null⟩]
    else
      ms.map (fun n =>
        ⟨r.station_id, r.date, r.aqi, r.co2_ppm, c, r.lat, r.lon,
         r.temp_c, r.humidity, r.precip_mm, n.renewable_share⟩))).flatten

/-- Replace a null by the fill value, keep a non-null value. -/
def fillWith (m : Option ℚ) (v : Option ℚ) : Option ℚ :=
  match v with
  | some q => some q
  | none => m

/-- Imputer (source lines 54-63).  For `temp_c`, `humidity`, `precip_mm`
the column is coerced and its nulls filled with the median of the coerced
column; for `renewable_share` the source computes the fill value as
`df["renewable_share"].median()` on the column BEFORE coercion, which
raises `TypeError` when the raw column holds a non-numeric string.
A null median (entirely-null column) leaves nulls in place. -/
def imputeStep (rows : List JoinedRow) : Except TransformError (List EnrichedRow) :=
  let mt := medianOpt (rows.map (fun r => toNumeric r.temp_c))
  let mh := medianOpt (rows.map (fun r => toNumeric r.humidity))
  let mp := medianOpt (rows.map (fun r => toNumeric r.precip_mm))
  match medianRaw (rows.map (fun r => r.renewable_share)) with
  | none => .error (.typeMismatch "renewable_share")
  | some ms =>
    .ok (rows.map (fun r =>
      ⟨r.station_id, r.date, r.aqi, r.co2_ppm, r.city, r.lat, r.lon,
       fillWith mt (toNumeric r.temp_c),
       fillWith mh (toNumeric r.humidity),
       fillWith mp (toNumeric r.precip_mm),
       fillWith ms (toNumeric r.renewable_share),
       none⟩))

/-- Unit Enricher inside `clean_and_join`: on the joined table `temp_c`
always exists and `temp_f` never does, so `add_temp_fahrenheit` reduces to
deriving `temp_f = c_to_f(temp_c)` cellwise; after imputation every
`temp_c` cell is numeric or null, and `round(nan, 1)` is nan. -/
def fahrenheitStep (include_fahrenheit : Bool) (rows : List EnrichedRow) : List EnrichedRow :=
  if include_fahrenheit then
    rows.map (fun r => { r with temp_f := r.temp_c.map c_to_f })
  else rows

/-- The (station_id, date) key of the Deduplicator. -/
def rowKey (r : EnrichedRow) : String × Nat := (r.station_id, r.date)

/-- Deduplicator, `df.drop_duplicates(subset=["station_id", "date"])`:
keep each row whose key has not been seen before. -/
def dropDupFirst (seen : List (String × Nat)) : List EnrichedRow → List EnrichedRow
  | [] => []
  | r :: rs =>
    if rowKey r ∈ seen then dropDupFirst seen rs
    else r :: dropDupFirst (rowKey r :: seen) rs

/-- The pipeline of `clean_and_join` up to (but not including) the final
deduplication. -/
def enrichedPreDedup (api : List WeatherRow) (aq : List AirQualityRow)
    (renew : List RenewRow) (include_fahrenheit : Bool) :
    Except TransformError (List EnrichedRow) := do
  let apiN ← normWeatherRows 0 api
  let aqN ← normAQRows 0 aq
  let joined := merge2 (merge1 aqN apiN) renew
  let imputed ← imputeStep joined
  .ok (fahrenheitStep include_fahrenheit imputed)

/-- Clean and join air quality, weather, and renewable energy data
(source: `clean_and_join`). -/
def clean_and_join (api : List WeatherRow) (aq : List AirQualityRow)
    (renew : List RenewRow) (include_fahrenheit : Bool) :
    Except TransformError (List EnrichedRow) :=
  (enrichedPreDedup api aq renew include_fahrenheit).map (dropDupFirst [])

/-! ## KPI Aggregator (source: compute_kpis) -/

/-- Lexicographic code-point comparison of character lists. -/
def charListLt : List Char → List Char → Bool
  | [], [] => false
  | [], _ :: _ => true
  | _ :: _, [] => false
  | c :: cs, d :: ds =>
    if c.toNat < d.toNat then true
    else if d.toNat < c.toNat then false
    else charListLt cs ds

/-- The string order pandas uses when sorting object keys: lexicographic
by code point. -/
def strLtB (a b : String) : Bool := charListLt a.toList b.toList

/-- Strict order on the canonical date numerals. -/
def natLtB (a b : Nat) : Bool := decide (a < b)

/-- Insert into a strictly `lt`-sorted list, skipping an element already
present (the sorted-unique key list of a pandas groupby). -/
def insertD {α : Type} [DecidableEq α] (lt : α → α → Bool) (a : α) : List α → List α
  | [] => [a]
  | b :: bs =>
    if lt a b then a :: b :: bs
    else if a = b then b :: bs
    else b :: insertD lt a bs

/-- Sorted list of the distinct elements of `l` (pandas groupby keys with
`sort=True`, the default). -/
def sortDedup {α : Type} [DecidableEq α] (lt : α → α → Bool) (l : List α) : List α :=
  l.foldr (insertD lt) []

/-- Trailing rolling mean with window 7 and `min_periods=1`
(`s.rolling(window=7, min_periods=1).mean()`): at position `i` the mean of
the non-null values among positions `max(0, i-6) .. i`, null when the
window holds no non-null value. -/
def rolling7 (l : List (Option ℚ)) : List (Option ℚ) :=
  (List.range l.length).map (fun i => meanOpt ((l.take (i + 1)).drop (i + 1 - 7)))

/-- First difference followed by `fillna(0.0)`
(`groupby("city")[...].diff().fillna(0.0)` within one city): 0 at the
first position, and 0 wherever either operand of the difference is null
(NaN minus anything is NaN, then filled). -/
def diffFill0 (l : List (Option ℚ)) : List ℚ :=
  (List.range l.length).map (fun i =>
    if i = 0 then 0
    else
      match l.getD i none, l.getD (i - 1) none with
      | some a, some b => a - b
      | _, _ => 0)

/-- One row of the daily city rollup. -/
structure DailyCityRow where
  city : String
  date : Nat
  avg_aqi : Option ℚ
  avg_co2_ppm : Option ℚ
  co2_7d_ma : Option ℚ
  co2_7d_delta : ℚ
deriving DecidableEq

/-- One row of the AQI category histogram. -/
structure AqiCategoryRow where
  city : String
  aqi_bucket : String
  days_in_bucket : Nat
deriving DecidableEq

/-- One row of the alignment classification. -/
structure AlignmentRow where
  city : String
  avg_aqi : Option ℚ
  renewable_share : Option ℚ
  clean_energy_alignment : String
deriving DecidableEq

/-- The KPI package returned by `compute_kpis`. -/
structure KPIResult where
  daily_city : List DailyCityRow
  aqi_categories : List AqiCategoryRow
  alignment : List AlignmentRow

/-- AQI bucket classification (source: nested `aqi_bucket`).  On a null
aqi every `<=` comparison against NaN is False in Python, so the function
falls through to the final return "Unhealthy+". -/
def aqi_bucket (x : Option ℚ) : String :=
  match x with
  | some v =>
    if v ≤ 50 then "Good"
    else if v ≤ 100 then "Moderate"
    else if v ≤ 150 then "Unhealthy for SG"
    else "Unhealthy+"
  | none => "Unhealthy+"

/-- The enriched rows of one city (one pandas `groupby("city")` group,
in row order). -/
def cityRows (rows : List EnrichedRow) (c : String) : List EnrichedRow :=
  rows.filter (fun r => r.city = c)

/-- The distinct dates of one city, ascending (the `date` part of the
sorted `groupby(["city", "date"])` keys). -/
def cityDates (rows : List EnrichedRow) (c : String) : List Nat :=
  sortDedup natLtB ((cityRows rows c).map (fun r => r.date))

/-- Per (city, date) group mean of `aqi`, in date order. -/
def cityAvgAqi (rows : List EnrichedRow) (c : String) : List (Option ℚ) :=
  (cityDates rows c).map (fun d =>
    meanOpt (((cityRows rows c).filter (fun r => r.date = d)).map (fun r => r.aqi)))

/-- Per (city, date) group mean of `co2_ppm`, in date order. -/
def cityAvgCo2 (rows : List EnrichedRow) (c : String) : List (Option ℚ) :=
  (cityDates rows c).map (fun d =>
    meanOpt (((cityRows rows c).filter (fun r => r.date = d)).map (fun r => r.co2_ppm)))

/-- The daily-rollup block of one city: dates sorted ascending, group
means of `aqi` and `co2_ppm`, rolling CO₂ mean and its filled first
difference.  `daily_city` is the concatenation of these blocks over the
sorted distinct cities, which is exactly the
`groupby(["city", "date"]) ... sort_values(["city", "date"])` table with
the per-city `transform`/`diff` applied. -/
def cityBlock (rows : List EnrichedRow) (c : String) : List DailyCityRow :=
  let dates := cityDates rows c
  let avgA := cityAvgAqi rows c
  let avgC := cityAvgCo2 rows c
  let ma := rolling7 avgC
  let delta := diffFill0 ma
  (List.range dates.length).map (fun i =>
    ⟨c, dates.getD i 0, avgA.getD i none, avgC.getD i none, ma.getD i none, delta.getD i 0⟩)

/-- Insert into a list sorted by date (ascending). -/
def insByDate (a : DailyCityRow) : List DailyCityRow → List DailyCityRow
  | [] => [a]
  | b :: bs => if a.date ≤ b.date then a :: b :: bs else b :: insByDate a bs

/-- Sort rollup rows by date, `daily_city.sort_values("date")`.  The pandas
sort is not stable for ties, but within one city the dates are distinct,
and only the per-city order is observable downstream. -/
def sortByDate (l : List DailyCityRow) : List DailyCityRow := l.foldr insByDate []

/-- Last row of each city in the order given,
`groupby("city").tail(1)` (a filter keeping each city's last row). -/
def tail1City : List DailyCityRow → List DailyCityRow
  | [] => []
  | r :: rs =>
    if rs.any (fun x => x.city = r.city) then tail1City rs
    else r :: tail1City rs

/-- The condition `renewable_share >= 0.5` of the alignment signal;
False on NaN. -/
def geOptHalf (o : Option ℚ) : Bool :=
  match o with
  | some v => decide ((0.5 : ℚ) ≤ v)
  | none => false

/-- The condition `avg_aqi <= 100` of the alignment signal; False on NaN. -/
def leOpt100 (o : Option ℚ) : Bool :=
  match o with
  | some v => decide (v ≤ (100 : ℚ))
  | none => false

/-- The `np.where` label of the alignment table. -/
def alignLabel (share : Option ℚ) (avgAqi : Option ℚ) : String :=
  if geOptHalf share && leOpt100 avgAqi then "Aligned" else "Needs Improvement"

/-- The city's `renewable_share` in the enriched table,
`df[["city", "renewable_share"]].drop_duplicates("city")` followed by a
left merge: the first occurrence for the city, null when the city is
absent. -/
def firstShare (rows : List EnrichedRow) (c : String) : Option ℚ :=
  match rows.find? (fun r => r.city = c) with
  | some r => r.renewable_share
  | none => none

/-- The sorted distinct cities of the enriched table (the outer groupby
key of every aggregation). -/
def allCities (rows : List EnrichedRow) : List String :=
  sortDedup strLtB (rows.map (fun r => r.city))

/-- The sorted distinct AQI buckets observed for one city (the inner part
of the sorted `groupby(["city", "aqi_bucket"])` keys). -/
def cityBuckets (rows : List EnrichedRow) (c : String) : List String :=
  sortDedup strLtB ((cityRows rows c).map (fun r => aqi_bucket r.aqi))

/-- The AQI category counts of one city:
`days_in_bucket` is the group size of the (city, bucket) pair. -/
def cityCats (rows : List EnrichedRow) (c : String) : List AqiCategoryRow :=
  (cityBuckets rows c).map (fun b =>
    AqiCategoryRow.mk c b (((cityRows rows c).filter (fun r => aqi_bucket r.aqi = b)).length))

/-- Computes KPIs from the cleaned data (source: `compute_kpis`). -/
def compute_kpis (rows : List EnrichedRow) : KPIResult :=
  let daily := ((allCities rows).map (cityBlock rows)).flatten
  let cats := ((allCities rows).map (cityCats rows)).flatten
  let lastRows := tail1City (sortByDate daily)
  let alignment := lastRows.map (fun r =>
      let share := firstShare rows r.city
      AlignmentRow.mk r.city r.avg_aqi share (alignLabel share r.avg_aqi))
  ⟨daily, cats, alignment⟩

/-- The rows of the daily city rollup belonging to one city, in rollup
order. -/
def cityDaily (rows : List EnrichedRow) (c : String) : List DailyCityRow :=
  (compute_kpis rows).daily_city.filter (fun r => r.city = c)

/-- The last up-to-7 elements of the first `i + 1` elements of a sequence
(most recent first); the window of the claimed trailing rolling mean. -/
def trailWindow (l : List ℚ) (i : Nat) : List ℚ := (l.take (i + 1)).reverse.take 7

/-- A raw cell that `pd.to_numeric(..., errors="coerce")` and
`astype("f8")` agree on: null, a number, or a numeric string. -/
def coercible : Value → Bool
  | .null => true
  | .num _ => true
  | .str s => (parseNumQ s).isSome

/-! ## Order facts for the sorting helpers -/

theorem charListLt_irrefl (l : List Char) : charListLt l l = false := by
  induction l with
  | nil => rfl
  | cons c cs ih => simp [charListLt, ih]

theorem charListLt_trans (a : List Char) : ∀ b c, charListLt a b = true →
    charListLt b c = true → charListLt a c = true := by
  induction a with
  | nil => intro b c h1 h2; cases b <;> cases c <;> simp_all [charListLt]
  | cons x xs ih =>
    intro b c h1 h2
    cases b with
    | nil => simp [charListLt] at h1
    | cons d ds =>
      cases c with
      | nil => simp [charListLt] at h2
      | cons e es =>
        simp only [charListLt] at h1 h2 ⊢
        rcases Nat.lt_trichotomy x.toNat d.toNat with hxd | hxd | hxd <;>
          rcases Nat.lt_trichotomy d.toNat e.toNat with hde | hde | hde <;>
          simp_all [Nat.lt_irrefl, Nat.lt_asymm] <;>
          first
            | (exact absurd (hxd.trans hde) (Nat.lt_irrefl _)) 
            | omega
            | (exact ih ds es h1 h2)

theorem charListLt_tricho (a : List Char) : ∀ b, charListLt a b = false → a ≠ b →
    charListLt b a = true := by
  induction a with
  | nil =>
    intro b h1 h2
    cases b with
    | nil => exact absurd rfl h2
    | cons d ds => simp [charListLt] at h1
  | cons x xs ih =>
    intro b h1 h2
    cases b with
    | nil => rfl
    | cons d ds =>
      simp only [charListLt] at h1 ⊢
      rcases Nat.lt_trichotomy x.toNat d.toNat with hxd | hxd | hxd <;>
        simp_all [Nat.lt_irrefl, Nat.lt_asymm]
      · have hxd' : x = d := Char.ext (UInt32.ext hxd)
        have hne : xs ≠ ds := fun hx => h2 hxd' hx
        exact ih ds h1 hne

theorem string_toList_inj {a b : String} (h : a.toList = b.toList) : a = b := by
  cases a; cases b
  exact congrArg String.mk (by simpa [String.toList] using h)

theorem strLtB_irrefl (s : String) : strLtB s s = false := charListLt_irrefl _

theorem strLtB_trans (a b c : String) (h1 : strLtB a b = true) (h2 : strLtB b c = true) :
    strLtB a c = true := charListLt_trans _ _ _ h1 h2

theorem strLtB_tricho (a b : String) (h1 : strLtB a b = false) (h2 : a ≠ b) :
    strLtB b a = true :=
  charListLt_tricho _ _ h1 (fun hl => h2 (string_toList_inj hl))

theorem natLtB_irrefl (x : Nat) : natLtB x x = false := by simp [natLtB]

theorem natLtB_trans (a b c : Nat) (h1 : natLtB a b = true) (h2 : natLtB b c = true) :
    natLtB a c = true := by simp [natLtB] at h1 h2 ⊢; omega

theorem natLtB_tricho (a b : Nat) (h1 : natLtB a b = false) (h2 : a ≠ b) :
    natLtB b a = true := by simp [natLtB] at h1 ⊢; omega

/-! ## sortDedup lemmas -/

theorem mem_insertD {α : Type} [DecidableEq α] (lt : α → α → Bool) (a x : α) (l : List α) :
    x ∈ insertD lt a l ↔ x = a ∨ x ∈ l := by
  induction l with
  | nil => simp [insertD]
  | cons b bs ih =>
    simp only [insertD]
    split
    · simp [List.mem_cons]
    · split
      · rename_i hab
        subst hab
        simp [List.mem_cons]
      · simp [List.mem_cons, ih]
        tauto

theorem mem_sortDedup {α : Type} [DecidableEq α] (lt : α → α → Bool) (x : α) (l : List α) :
    x ∈ sortDedup lt l ↔ x ∈ l := by
  induction l with
  | nil => simp [sortDedup]
  | cons b bs ih =>
    show x ∈ insertD lt b (sortDedup lt bs) ↔ _
    rw [mem_insertD]
    simp [List.mem_cons, ih]

theorem pairwise_insertD {α : Type} [DecidableEq α] (lt : α → α → Bool)
    (htrans : ∀ x y z, lt x y = true → lt y z = true → lt x z = true)
    (htricho : ∀ x y, lt x y = false → x ≠ y → lt y x = true)
    (a : α) (l : List α) (hl : l.Pairwise (fun x y => lt x y = true)) :
    (insertD lt a l).Pairwise (fun x y => lt x y = true) := by
  induction l with
  | nil => simp [insertD]
  | cons b bs ih =>
    rw [List.pairwise_cons] at hl
    obtain ⟨hb, hbs⟩ := hl
    simp only [insertD]
    split
    · rename_i hab
      refine List.Pairwise.cons ?_ (List.Pairwise.cons hb hbs)
      intro y hy
      rcases List.mem_cons.mp hy with rfl | hy'
      · exact hab
      · exact htrans a b y hab (hb y hy')
    · split
      · exact List.Pairwise.cons hb hbs
      · rename_i hab hane
        refine List.Pairwise.cons ?_ (ih hbs)
        intro y hy
        rcases (mem_insertD lt a y bs).mp hy with heq | hy'
        · rw [heq]
          exact htricho a b (by simpa using hab) hane
        · exact hb y hy'

theorem pairwise_sortDedup {α : Type} [DecidableEq α] (lt : α → α → Bool)
    (htrans : ∀ x y z, lt x y = true → lt y z = true → lt x z = true)
    (htricho : ∀ x y, lt x y = false → x ≠ y → lt y x = true)
    (l : List α) : (sortDedup lt l).Pairwise (fun x y => lt x y = true) := by
  induction l with
  | nil => simp [sortDedup]
  | cons b bs ih => exact pairwise_insertD lt htrans htricho b _ ih

theorem nodup_sortDedup {α : Type} [DecidableEq α] (lt : α → α → Bool)
    (htrans : ∀ x y z, lt x y = true → lt y z = true → lt x z = true)
    (htricho : ∀ x y, lt x y = false → x ≠ y → lt y x = true)
    (hirrefl : ∀ x, lt x x = false)
    (l : List α) : (sortDedup lt l).Nodup := by
  refine (pairwise_sortDedup lt htrans htricho l).imp ?_
  intro a b hab heq
  subst heq
  rw [hirrefl a] at hab
  exact Bool.noConfusion hab

/-! ## Access lemmas for the rollup construction -/

theorem length_rolling7 (l : List (Option ℚ)) : (rolling7 l).length = l.length := by
  simp [rolling7]

theorem getElem?_rolling7 (l : List (Option ℚ)) (i : Nat) (hi : i < l.length) :
    (rolling7 l)[i]? = some (meanOpt ((l.take (i + 1)).drop (i + 1 - 7))) := by
  simp [rolling7, List.getElem?_map, List.getElem?_range hi]

theorem length_diffFill0 (l : List (Option ℚ)) : (diffFill0 l).length = l.length := by
  simp [diffFill0]

theorem getElem?_diffFill0 (l : List (Option ℚ)) (i : Nat) (hi : i < l.length) :
    (diffFill0 l)[i]? = some (if i = 0 then 0
      else match l.getD i none, l.getD (i - 1) none with
        | some a, some b => a - b
        | _, _ => 0) := by
  simp [diffFill0, List.getElem?_map, List.getElem?_range hi]

theorem length_cityAvgCo2 (rows : List EnrichedRow) (c : String) :
    (cityAvgCo2 rows c).length = (cityDates rows c).length := by
  simp [cityAvgCo2]

theorem length_cityBlock (rows : List EnrichedRow) (c : String) :
    (cityBlock rows c).length = (cityDates rows c).length := by
  simp [cityBlock]

theorem getElem?_cityBlock (rows : List EnrichedRow) (c : String) (i : Nat)
    (hi : i < (cityDates rows c).length) :
    (cityBlock rows c)[i]? = some
      ⟨c, (cityDates rows c).getD i 0, (cityAvgAqi rows c).getD i none,
       (cityAvgCo2 rows c).getD i none,
       (rolling7 (cityAvgCo2 rows c)).getD i none,
       (diffFill0 (rolling7 (cityAvgCo2 rows c))).getD i 0⟩ := by
  simp [cityBlock, List.getElem?_map, List.getElem?_range hi]

theorem city_of_mem_cityBlock {rows : List EnrichedRow} {c : String} {x : DailyCityRow}
    (hx : x ∈ cityBlock rows c) : x.city = c := by
  simp only [cityBlock, List.mem_map] at hx
  obtain ⟨i, _, rfl⟩ := hx
  rfl

theorem map_avgCo2_cityBlock (rows : List EnrichedRow) (c : String) :
    (cityBlock rows c).map (fun r => r.avg_co2_ppm) = cityAvgCo2 rows c := by
  apply List.ext_getElem?
  intro i
  by_cases hi : i < (cityDates rows c).length
  · rw [List.getElem?_map, getElem?_cityBlock rows c i hi]
    have hi2 : i < (cityAvgCo2 rows c).length := by rw [length_cityAvgCo2]; exact hi
    rw [List.getElem?_eq_getElem hi2]
    simp [List.getD_eq_getElem?_getD, List.getElem?_eq_getElem hi2]
  · have h1 : (cityBlock rows c).length ≤ i := by
      rw [length_cityBlock]; omega
    have h2 : (cityAvgCo2 rows c).length ≤ i := by
      rw [length_cityAvgCo2]; omega
    rw [List.getElem?_eq_none (by simpa using h1), List.getElem?_eq_none h2]

/-! ## Decomposition of daily_city into city blocks -/

theorem filter_flatten_blocks (rows : List EnrichedRow) (c : String) (cs : List String)
    (hnd : cs.Nodup) :
    ((cs.map (cityBlock rows)).flatten).filter (fun r => r.city = c)
      = if c ∈ cs then cityBlock rows c else [] := by
  induction cs with
  | nil => simp
  | cons c' cs' ih =>
    rw [List.nodup_cons] at hnd
    obtain ⟨hc', hnd'⟩ := hnd
    simp only [List.map_cons, List.flatten_cons, List.filter_append, ih hnd']
    by_cases hcc : c' = c
    · subst hcc
      have hfull : (cityBlock rows c').filter (fun r => decide (r.city = c')) = cityBlock rows c' :=
        List.filter_eq_self.mpr (fun a ha => by
          simp [city_of_mem_cityBlock ha])
      rw [hfull, if_neg hc', if_pos (List.mem_cons_self c' cs'), List.append_nil]
    · have hnil : (cityBlock rows c').filter (fun r => decide (r.city = c)) = [] :=
        List.filter_eq_nil_iff.mpr (fun a ha => by
          simp [city_of_mem_cityBlock ha, hcc])
      rw [hnil, List.nil_append]
      by_cases hmem : c ∈ cs'
      · rw [if_pos hmem, if_pos (List.mem_cons_of_mem c' hmem)]
      · rw [if_neg hmem, if_neg ?_]
        intro hmem2
        rcases List.mem_cons.mp hmem2 with heq | h
        · exact hcc heq.symm
        · exact hmem h

theorem cityDaily_eq (rows : List EnrichedRow) (c : String) :
    cityDaily rows c = if c ∈ allCities rows then cityBlock rows c else [] := by
  have hnd : (allCities rows).Nodup :=
    nodup_sortDedup strLtB strLtB_trans strLtB_tricho strLtB_irrefl _
  exact filter_flatten_blocks rows c _ hnd

/-! ## Deduplicator lemmas -/

theorem mem_dropDupFirst {seen : List (String × Nat)} {l : List EnrichedRow} {r : EnrichedRow} :
    r ∈ dropDupFirst seen l → r ∈ l := by
  induction l generalizing seen with
  | nil => simp [dropDupFirst]
  | cons h t ih =>
    intro hr
    simp only [dropDupFirst] at hr
    split at hr
    · exact List.mem_cons_of_mem h (ih hr)
    · rcases List.mem_cons.mp hr with rfl | hr'
      · exact List.mem_cons_self _ _
      · exact List.mem_cons_of_mem h (ih hr')

theorem key_notin_seen {seen : List (String × Nat)} {l : List EnrichedRow} {r : EnrichedRow}
    (h : r ∈ dropDupFirst seen l) : rowKey r ∉ seen := by
  induction l generalizing seen with
  | nil => simp [dropDupFirst] at h
  | cons x t ih =>
    simp only [dropDupFirst] at h
    split at h
    · exact ih h
    · rcases List.mem_cons.mp h with rfl | h'
      · assumption
      · have := ih h'
        intro hk
        exact this (List.mem_cons_of_mem _ hk)

theorem pairwise_dropDupFirst (seen : List (String × Nat)) (l : List EnrichedRow) :
    (dropDupFirst seen l).Pairwise (fun a b => rowKey a ≠ rowKey b) := by
  induction l generalizing seen with
  | nil => simp [dropDupFirst]
  | cons h t ih =>
    simp only [dropDupFirst]
    split
    · exact ih seen
    · refine List.Pairwise.cons ?_ (ih _)
      intro b hb heq
      exact key_notin_seen hb (heq ▸ List.mem_cons_self _ _)

theorem first_occurrence_dropDupFirst (seen : List (String × Nat)) (l : List EnrichedRow)
    (r : EnrichedRow) (hr : r ∈ dropDupFirst seen l) :
    ∃ l₁ l₂, l = l₁ ++ r :: l₂ ∧ ∀ x ∈ l₁, rowKey x ∈ seen ∨ rowKey x ≠ rowKey r := by
  induction l generalizing seen with
  | nil => simp [dropDupFirst] at hr
  | cons h t ih =>
    simp only [dropDupFirst] at hr
    split at hr
    · rename_i hmem
      obtain ⟨l₁, l₂, heq, hall⟩ := ih seen hr
      refine ⟨h :: l₁, l₂, by rw [heq]; rfl, ?_⟩
      intro x hx
      rcases List.mem_cons.mp hx with rfl | hx'
      · exact Or.inl hmem
      · exact hall x hx'
    · rename_i hmem
      rcases List.mem_cons.mp hr with rfl | hr'
      · exact ⟨[], t, rfl, by simp⟩
      · obtain ⟨l₁, l₂, heq, hall⟩ := ih (rowKey h :: seen) hr'
        have hkey : rowKey r ∉ rowKey h :: seen := key_notin_seen hr'
        have hkey1 : rowKey r ≠ rowKey h := fun hk => hkey (hk ▸ List.mem_cons_self _ _)
        refine ⟨h :: l₁, l₂, by rw [heq]; rfl, ?_⟩
        intro x hx
        rcases List.mem_cons.mp hx with rfl | hx'
        · exact Or.inr (fun hk => hkey1 hk.symm)
        · rcases hall x hx' with hs | hne
          · rcases List.mem_cons.mp hs with heq2 | hs'
            · exact Or.inr (fun hk => hkey1 ((heq2 ▸ hk).symm))
            · exact Or.inl hs'
          · exact Or.inr hne

/-! ## sort_values("date") and groupby("city").tail(1) lemmas -/

theorem mem_insByDate (a x : DailyCityRow) (l : List DailyCityRow) :
    x ∈ insByDate a l ↔ x = a ∨ x ∈ l := by
  induction l with
  | nil => simp [insByDate]
  | cons b bs ih =>
    simp only [insByDate]
    split
    · simp [List.mem_cons]
    · simp [List.mem_cons, ih]
      tauto

theorem mem_sortByDate (x : DailyCityRow) (l : List DailyCityRow) :
    x ∈ sortByDate l ↔ x ∈ l := by
  induction l with
  | nil => simp [sortByDate]
  | cons b bs ih =>
    show x ∈ insByDate b (sortByDate bs) ↔ _
    rw [mem_insByDate]
    simp [List.mem_cons, ih]

theorem pairwise_insByDate (a : DailyCityRow) (l : List DailyCityRow)
    (hl : l.Pairwise (fun x y => x.date ≤ y.date)) :
    (insByDate a l).Pairwise (fun x y => x.date ≤ y.date) := by
  induction l with
  | nil => simp [insByDate]
  | cons b bs ih =>
    rw [List.pairwise_cons] at hl
    obtain ⟨hb, hbs⟩ := hl
    simp only [insByDate]
    split
    · rename_i hab
      refine List.Pairwise.cons ?_ (List.Pairwise.cons hb hbs)
      intro y hy
      rcases List.mem_cons.mp hy with rfl | hy'
      · exact hab
      · exact le_trans hab (hb y hy')
    · rename_i hab
      refine List.Pairwise.cons ?_ (ih hbs)
      intro y hy
      rcases (mem_insByDate a y bs).mp hy with heq | hy'
      · rw [heq]; omega
      · exact hb y hy'

theorem pairwise_sortByDate (l : List DailyCityRow) :
    (sortByDate l).Pairwise (fun x y => x.date ≤ y.date) := by
  induction l with
  | nil => simp [sortByDate]
  | cons b bs ih => exact pairwise_insByDate b _ ih

theorem mem_tail1City {l : List DailyCityRow} {x : DailyCityRow}
    (hx : x ∈ tail1City l) : x ∈ l := by
  induction l with
  | nil => simp [tail1City] at hx
  | cons h t ih =>
    simp only [tail1City] at hx
    split at hx
    · exact List.mem_cons_of_mem h (ih hx)
    · rcases List.mem_cons.mp hx with rfl | hx'
      · exact List.mem_cons_self _ _
      · exact List.mem_cons_of_mem h (ih hx')

theorem tail1City_latest (l : List DailyCityRow)
    (hl : l.Pairwise (fun a b => a.date ≤ b.date)) :
    ∀ x ∈ tail1City l, ∀ y ∈ l, y.city = x.city → y.date ≤ x.date := by
  induction l with
  | nil => simp [tail1City]
  | cons h t ih =>
    rw [List.pairwise_cons] at hl
    obtain ⟨hh, ht⟩ := hl
    intro x hx y hy hcity
    simp only [tail1City] at hx
    split at hx
    · rcases List.mem_cons.mp hy with rfl | hy'
      · exact hh x (mem_tail1City hx)
      · exact ih ht x hx y hy' hcity
    · rename_i hany
      rcases List.mem_cons.mp hx with rfl | hx'
      · rcases List.mem_cons.mp hy with rfl | hy'
        · exact le_refl _
        · exfalso
          have hno : ∀ z ∈ t, ¬z.city = x.city := by simpa using hany
          exact hno y hy' hcity
      · rcases List.mem_cons.mp hy with rfl | hy'
        · exact hh x (mem_tail1City hx')
        · exact ih ht x hx' y hy' hcity

/-! ## Median agreement and failure on raw columns -/

theorem rawFloats_of_coercible (l : List Value) (h : ∀ v ∈ l, coercible v = true) :
    rawFloats l = some (l.filterMap toNumeric) := by
  induction l with
  | nil => rfl
  | cons v vs ih =>
    have hv : coercible v = true := h v (List.mem_cons_self _ _)
    have hvs : ∀ w ∈ vs, coercible w = true := fun w hw => h w (List.mem_cons_of_mem _ hw)
    cases v with
    | null => simp [rawFloats, List.filterMap_cons, toNumeric, ih hvs]
    | num q => simp [rawFloats, List.filterMap_cons, toNumeric, ih hvs]
    | str s =>
      simp only [coercible] at hv
      obtain ⟨q, hq⟩ := Option.isSome_iff_exists.mp hv
      simp [rawFloats, List.filterMap_cons, toNumeric, hq, ih hvs]

theorem medianRaw_of_coercible (l : List Value) (h : ∀ v ∈ l, coercible v = true) :
    medianRaw l = some (medianOpt (l.map toNumeric)) := by
  rw [medianRaw, rawFloats_of_coercible l h]
  simp [medianOpt, List.filterMap_map, Function.comp]

theorem rawFloats_of_bad (l : List Value) (h : ∃ v ∈ l, coercible v = false) :
    rawFloats l = none := by
  induction l with
  | nil => simp at h
  | cons v vs ih =>
    obtain ⟨w, hw, hbad⟩ := h
    rcases List.mem_cons.mp hw with rfl | hw'
    · cases w with
      | null => simp [coercible] at hbad
      | num q => simp [coercible] at hbad
      | str s =>
        simp only [coercible] at hbad
        cases hps : parseNumQ s with
        | none => simp [rawFloats, hps]
        | some q => rw [hps] at hbad; simp at hbad
    · cases v with
      | null => simpa [rawFloats] using ih ⟨w, hw', hbad⟩
      | num q => simp [rawFloats, ih ⟨w, hw', hbad⟩]
      | str s =>
        cases hps : parseNumQ s with
        | none => simp [rawFloats, hps]
        | some q => simp [rawFloats, hps, ih ⟨w, hw', hbad⟩]

theorem medianRaw_of_bad (l : List Value) (h : ∃ v ∈ l, coercible v = false) :
    medianRaw l = none := by
  rw [medianRaw, rawFloats_of_bad l h]
  rfl

/-! ## Trailing-window arithmetic -/

theorem reverse_take_eq_drop_reverse (p : List ℚ) (k : Nat) :
    p.reverse.take k = (p.drop (p.length - k)).reverse := by
  have h := @List.reverse_take ℚ p.reverse k
  simp only [List.reverse_reverse, List.length_reverse] at h
  calc p.reverse.take k = (p.reverse.take k).reverse.reverse := by rw [List.reverse_reverse]
    _ = (p.drop (p.length - k)).reverse := by rw [h]

theorem length_take_of_lt (p : List ℚ) (i : Nat) (hi : i < p.length) :
    (p.take (i + 1)).length = i + 1 := by
  rw [List.length_take]
  exact min_eq_left (by omega)

theorem trailWindow_sum (p : List ℚ) (i : Nat) (hi : i < p.length) :
    (trailWindow p i).sum = (((p.take (i + 1)).drop (i + 1 - 7))).sum := by
  unfold trailWindow
  rw [reverse_take_eq_drop_reverse (p.take (i + 1)) 7, List.sum_reverse,
    length_take_of_lt p i hi]

theorem trailWindow_length (p : List ℚ) (i : Nat) (hi : i < p.length) :
    (trailWindow p i).length = ((p.take (i + 1)).drop (i + 1 - 7)).length := by
  unfold trailWindow
  rw [reverse_take_eq_drop_reverse (p.take (i + 1)) 7, List.length_reverse,
    length_take_of_lt p i hi]

theorem meanOpt_map_some (w : List ℚ) (hw : w ≠ []) :
    meanOpt (w.map some) = some (w.sum / (w.length : ℚ)) := by
  have h1 : (w.map some).filterMap id = w := by
    rw [List.filterMap_map]
    rw [show (id ∘ some : ℚ → Option ℚ) = some from rfl]
    exact List.filterMap_some w
  simp [meanOpt, h1, List.length_eq_zero, hw]

/-! ## AQI category helpers -/

theorem aqiCats_spec {rows : List EnrichedRow} {e : AqiCategoryRow}
    (he : e ∈ (compute_kpis rows).aqi_categories) :
    e.days_in_bucket
        = rows.countP (fun r => decide (r.city = e.city) && decide (aqi_bucket r.aqi = e.aqi_bucket))
      ∧ 0 < e.days_in_bucket := by
  simp only [compute_kpis, List.mem_flatten, List.mem_map] at he
  obtain ⟨blk, ⟨c, hc, rfl⟩, hebk⟩ := he
  simp only [cityCats, List.mem_map] at hebk
  obtain ⟨b, hb, rfl⟩ := hebk
  constructor
  · show ((cityRows rows c).filter (fun r => decide (aqi_bucket r.aqi = b))).length = _
    rw [← List.countP_eq_length_filter, cityRows, List.countP_filter]
    congr 1
    funext r
    exact Bool.and_comm _ _
  · simp only [cityBuckets] at hb
    have hb' : b ∈ (cityRows rows c).map (fun r => aqi_bucket r.aqi) :=
      (mem_sortDedup _ _ _).mp hb
    obtain ⟨r, hr, hrb⟩ := List.mem_map.mp hb'
    have hmem : r ∈ (cityRows rows c).filter (fun r => decide (aqi_bucket r.aqi = b)) :=
      List.mem_filter.mpr ⟨hr, by simp [hrb]⟩
    simpa using List.length_pos.mpr (List.ne_nil_of_mem hmem)

theorem aqiCats_complete {rows : List EnrichedRow} {r : EnrichedRow} (hr : r ∈ rows) :
    ∃ e ∈ (compute_kpis rows).aqi_categories,
      e.city = r.city ∧ e.aqi_bucket = aqi_bucket r.aqi := by
  have hc : r.city ∈ allCities rows :=
    (mem_sortDedup _ _ _).mpr (List.mem_map_of_mem _ hr)
  have hrc : r ∈ cityRows rows r.city := List.mem_filter.mpr ⟨hr, by simp⟩
  have hb : aqi_bucket r.aqi ∈ cityBuckets rows r.city :=
    (mem_sortDedup _ _ _).mpr (List.mem_map_of_mem _ hrc)
  refine ⟨⟨r.city, aqi_bucket r.aqi,
    ((cityRows rows r.city).filter (fun x => aqi_bucket x.aqi = aqi_bucket r.aqi)).length⟩,
    ?_, rfl, rfl⟩
  simp only [compute_kpis, List.mem_flatten]
  refine ⟨cityCats rows r.city, List.mem_map_of_mem _ hc, ?_⟩
  simp only [cityCats, List.mem_map]
  exact ⟨aqi_bucket r.aqi, hb, rfl⟩

/-! ## Claim theorems: Unit Enricher -/

/-- C7: the Unit Enricher is idempotent.  For every table with a `temp_c`
column, if one application of `add_temp_fahrenheit` succeeds with result
`df2`, a second application is a no-op returning `df2` unchanged (it never
overwrites or re-derives `temp_f`), so applying it twice yields the same
`temp_f` values as applying it once. -/
theorem unit_enricher_idempotent (df : DataFrame) (hc : df.hasCol "temp_c" = true)
    (df2 : DataFrame) (h : add_temp_fahrenheit df = .ok df2) :
    add_temp_fahrenheit df2 = .ok df2 := by
  simp only [add_temp_fahrenheit, hc, Bool.true_eq_false, if_false] at h
  by_cases hf : df.hasCol "temp_f"
  · rw [if_pos hf] at h
    obtain rfl : df = df2 := by cases h; rfl
    simp [add_temp_fahrenheit, hc, hf]
  · rw [if_neg hf] at h
    cases hm : (df.getCol "temp_c").mapM cToFCell with
    | none => rw [hm] at h; cases h
    | some col =>
      rw [hm] at h
      obtain rfl : (⟨df.cols ++ [("temp_f", col)]⟩ : DataFrame) = df2 := by cases h; rfl
      have h1 : DataFrame.hasCol ⟨df.cols ++ [("temp_f", col)]⟩ "temp_c" = true := by
        simp only [DataFrame.hasCol] at hc ⊢
        rw [List.any_append, hc]
        rfl
      have h2 : DataFrame.hasCol ⟨df.cols ++ [("temp_f", col)]⟩ "temp_f" = true := by
        simp [DataFrame.hasCol, List.any_append]
      simp [add_temp_fahrenheit, h1, h2]

/-- Input for the C7 witness: a one-column table holding a single Celsius
value. -/
def c7df : DataFrame := ⟨[("temp_c", [.num 10])]⟩

/-- Result of enriching the C7 witness table once. -/
def c7df2 : DataFrame := ⟨[("temp_c", [.num 10]), ("temp_f", [.num (c_to_f 10)])]⟩

/-- Witness for C7 at a concrete table. -/
theorem unit_enricher_idempotent_witness :
    c7df.hasCol "temp_c" = true ∧ add_temp_fahrenheit c7df = .ok c7df2
      ∧ add_temp_fahrenheit c7df2 = .ok c7df2 :=
  ⟨rfl, rfl, unit_enricher_idempotent c7df rfl c7df2 rfl⟩

/-- C9: requesting the Fahrenheit conversion on a table lacking `temp_c`
fails immediately with the missing-column error (the source's
`KeyError("Column 'temp_c' not found in DataFrame")`), before anything is
derived, so the input table is left unchanged. -/
theorem missing_temp_c_errors (df : DataFrame) (h : df.hasCol "temp_c" = false) :
    add_temp_fahrenheit df = .error (.missingColumn "temp_c") := by
  simp [add_temp_fahrenheit, h]

/-- Input for the C9 witness: a table without a `temp_c` column. -/
def c9df : DataFrame := ⟨[("humidity", [.num 1])]⟩

/-- Witness for C9 at a concrete table. -/
theorem missing_temp_c_errors_witness :
    c9df.hasCol "temp_c" = false
      ∧ add_temp_fahrenheit c9df = .error (.missingColumn "temp_c") :=
  ⟨rfl, missing_temp_c_errors c9df rfl⟩

/-! ## Claim theorems: AQI categorization -/

/-- C2: `aqi_bucket` classifies with inclusive upper thresholds
(≤50 Good, ≤100 Moderate, ≤150 Unhealthy for SG, otherwise Unhealthy+),
and in `compute_kpis` the `days_in_bucket` of every (city, bucket) entry
is the number of enriched rows of that city falling in that bucket, every
entry counting at least one row, and every enriched row being counted
under its (city, bucket) pair. -/
theorem aqi_bucket_thresholds_and_counts :
    (∀ q : ℚ,
        (q ≤ 50 → aqi_bucket (some q) = "Good")
      ∧ (50 < q → q ≤ 100 → aqi_bucket (some q) = "Moderate")
      ∧ (100 < q → q ≤ 150 → aqi_bucket (some q) = "Unhealthy for SG")
      ∧ (150 < q → aqi_bucket (some q) = "Unhealthy+"))
    ∧ ∀ rows : List EnrichedRow,
        (∀ e ∈ (compute_kpis rows).aqi_categories,
            e.days_in_bucket = rows.countP
                (fun r => decide (r.city = e.city) && decide (aqi_bucket r.aqi = e.aqi_bucket))
          ∧ 0 < e.days_in_bucket)
        ∧ ∀ r ∈ rows, ∃ e ∈ (compute_kpis rows).aqi_categories,
            e.city = r.city ∧ e.aqi_bucket = aqi_bucket r.aqi := by
  constructor
  · intro q
    refine ⟨fun h1 => ?_, fun h1 h2 => ?_, fun h1 h2 => ?_, fun h1 => ?_⟩
    · simp [aqi_bucket, h1]
    · simp [aqi_bucket, not_le.mpr h1, h2]
    · simp [aqi_bucket, not_le.mpr h1,
        not_le.mpr (lt_trans (show (50 : ℚ) < 100 by norm_num) h1), h2]
    · have g1 : ¬q ≤ 50 := not_le.mpr (lt_trans (by norm_num) h1)
      have g2 : ¬q ≤ 100 := not_le.mpr (lt_trans (by norm_num) h1)
      have g3 : ¬q ≤ 150 := not_le.mpr h1
      simp [aqi_bucket, g1, g2, g3]
  · intro rows
    exact ⟨fun e he => aqiCats_spec he, fun r hr => aqiCats_complete hr⟩

/-- A concrete enriched row with `aqi = 50`. -/
def c2r1 : EnrichedRow :=
  ⟨"S1", 20250101, some 50, none, "C", .null, .null, none, none, none, none, none⟩

/-- A concrete enriched row with a null `aqi`. -/
def c2r2 : EnrichedRow :=
  ⟨"S2", 20250101, none, none, "C", .null, .null, none, none, none, none, none⟩

/-- Concrete two-row input for the bucket witnesses. -/
def c2Rows : List EnrichedRow := [c2r1, c2r2]

/-- Witness for C2 at the spec's boundary values and a concrete table. -/
theorem aqi_bucket_thresholds_and_counts_witness :
    aqi_bucket (some 50) = "Good" ∧ aqi_bucket (some 51) = "Moderate"
      ∧ aqi_bucket (some 100) = "Moderate" ∧ aqi_bucket (some 101) = "Unhealthy for SG"
      ∧ aqi_bucket (some 150) = "Unhealthy for SG" ∧ aqi_bucket (some 151) = "Unhealthy+"
      ∧ ∃ e ∈ (compute_kpis c2Rows).aqi_categories, e.city = "C" ∧ e.aqi_bucket = "Good"
          ∧ e.days_in_bucket = 1 := by
  have hthm := aqi_bucket_thresholds_and_counts
  refine ⟨(hthm.1 50).1 (by norm_num),
    (hthm.1 51).2.1 (by norm_num) (by norm_num),
    (hthm.1 100).2.1 (by norm_num) (by norm_num),
    (hthm.1 101).2.2.1 (by norm_num) (by norm_num),
    (hthm.1 150).2.2.1 (by norm_num) (by norm_num),
    (hthm.1 151).2.2.2 (by norm_num), ?_⟩
  obtain ⟨e, he, hc, hb⟩ := (hthm.2 c2Rows).2 c2r1 (by simp [c2Rows])
  refine ⟨e, he, hc, by rw [hb]; rfl, ?_⟩
  have := ((hthm.2 c2Rows).1 e he).1
  rw [this, hc, hb]
  decide

/-- C10 (implicit): a null aqi falls through every threshold comparison
(each is False against NaN) into the "Unhealthy+" bucket, so null-aqi
observations are counted in the city's "Unhealthy+" `days_in_bucket`
rather than being dropped or raising an error. -/
theorem null_aqi_counted_unhealthy_plus :
    aqi_bucket none = "Unhealthy+"
    ∧ ∀ (rows : List EnrichedRow) (r : EnrichedRow), r ∈ rows → r.aqi = none →
        ∃ e ∈ (compute_kpis rows).aqi_categories,
          e.city = r.city ∧ e.aqi_bucket = "Unhealthy+"
          ∧ e.days_in_bucket = rows.countP
              (fun x => decide (x.city = r.city) && decide (aqi_bucket x.aqi = "Unhealthy+"))
          ∧ 0 < e.days_in_bucket := by
  refine ⟨rfl, ?_⟩
  intro rows r hr hnull
  obtain ⟨e, he, hec, heb⟩ := aqiCats_complete hr
  have hspec := aqiCats_spec he
  have hb2 : e.aqi_bucket = "Unhealthy+" := by rw [heb, hnull]; rfl
  refine ⟨e, he, hec, hb2, ?_, hspec.2⟩
  rw [hspec.1, hec, hb2]

/-- Witness for C10 at a concrete table containing a null-aqi row. -/
theorem null_aqi_counted_unhealthy_plus_witness :
    aqi_bucket none = "Unhealthy+"
      ∧ ∃ e ∈ (compute_kpis c2Rows).aqi_categories,
          e.city = "C" ∧ e.aqi_bucket = "Unhealthy+"
          ∧ e.days_in_bucket = c2Rows.countP
              (fun x => decide (x.city = "C") && decide (aqi_bucket x.aqi = "Unhealthy+"))
          ∧ 0 < e.days_in_bucket :=
  ⟨rfl, null_aqi_counted_unhealthy_plus.2 c2Rows c2r2 (by simp [c2Rows]) rfl⟩

/-! ## Claim theorems: Imputer (corrected claim) -/

/-- C5 (amended): when every raw `renewable_share` value is coercion-safe
(null, numeric, or a numeric string — the cases where the pre-coercion
median of the source equals the claimed post-coercion median), the Imputer
succeeds and each of `temp_c`, `humidity`, `precip_mm`, `renewable_share`
is coerced to numeric and has its nulls replaced by the median of that
coerced column over the joined dataset (nulls ignored; an entirely-null
column keeps its nulls since its median is null).  When some
`renewable_share` value is a non-numeric string, the claimed behaviour
(coerce it to null, impute from the rest) does not happen: the source
computes the fill median on the raw column and the run aborts with the
`TypeError` of `Series.median()`. -/
theorem imputer_median_fill (t : List JoinedRow) :
    ((∀ r ∈ t, coercible r.renewable_share = true) →
      ∃ out, imputeStep t = .ok out ∧ out.length = t.length ∧
        ∀ (i : Nat) (r : EnrichedRow) (r₀ : JoinedRow), out[i]? = some r → t[i]? = some r₀ →
          r.temp_c = fillWith (medianOpt (t.map (fun x => toNumeric x.temp_c))) (toNumeric r₀.temp_c)
          ∧ r.humidity = fillWith (medianOpt (t.map (fun x => toNumeric x.humidity))) (toNumeric r₀.humidity)
          ∧ r.precip_mm = fillWith (medianOpt (t.map (fun x => toNumeric x.precip_mm))) (toNumeric r₀.precip_mm)
          ∧ r.renewable_share
              = fillWith (medianOpt (t.map (fun x => toNumeric x.renewable_share))) (toNumeric r₀.renewable_share)
          ∧ r.station_id = r₀.station_id ∧ r.date = r₀.date ∧ r.aqi = r₀.aqi
          ∧ r.co2_ppm = r₀.co2_ppm ∧ r.city = r₀.city)
    ∧ ((∃ r ∈ t, coercible r.renewable_share = false) →
      imputeStep t = .error (.typeMismatch "renewable_share")) := by
  constructor
  · intro hok
    have hmed : medianRaw (t.map (fun r => r.renewable_share))
        = some (medianOpt ((t.map (fun r => r.renewable_share)).map toNumeric)) := by
      apply medianRaw_of_coercible
      intro v hv
      obtain ⟨r, hr, rfl⟩ := List.mem_map.mp hv
      exact hok r hr
    refine ⟨t.map (fun r =>
      ⟨r.station_id, r.date, r.aqi, r.co2_ppm, r.city, r.lat, r.lon,
       fillWith (medianOpt (t.map (fun x => toNumeric x.temp_c))) (toNumeric r.temp_c),
       fillWith (medianOpt (t.map (fun x => toNumeric x.humidity))) (toNumeric r.humidity),
       fillWith (medianOpt (t.map (fun x => toNumeric x.precip_mm))) (toNumeric r.precip_mm),
       fillWith (medianOpt ((t.map (fun x => x.renewable_share)).map toNumeric))
         (toNumeric r.renewable_share),
       none⟩), ?_, ?_, ?_⟩
    · rw [imputeStep, hmed]
    · simp
    · intro i r r₀ hout ht
      rw [List.getElem?_map, ht] at hout
      obtain rfl : _ = r := by injection hout
      refine ⟨rfl, rfl, rfl, ?_, rfl, rfl, rfl, rfl, rfl⟩
      show fillWith (medianOpt ((t.map (fun x => x.renewable_share)).map toNumeric)) _ = _
      rw [List.map_map]
      rfl
  · intro hbad
    have hmed : medianRaw (t.map (fun r => r.renewable_share)) = none := by
      apply medianRaw_of_bad
      obtain ⟨r, hr, hb⟩ := hbad
      exact ⟨r.renewable_share, List.mem_map_of_mem _ hr, hb⟩
    rw [imputeStep, hmed]

/-- Joined rows on which the Imputer's claimed behaviour holds: shares are
null or numeric, `humidity` is entirely null (the accepted no-op edge
case), `temp_c` and `renewable_share` have nulls to impute. -/
def c5t : List JoinedRow :=
  [⟨"S1", 1, none, none, "A", .null, .null, .num 1, .null, .num 7, .num (4 / 10)⟩,
   ⟨"S2", 2, none, none, "A", .null, .null, .null, .null, .null, .null⟩,
   ⟨"S3", 3, none, none, "A", .null, .null, .num 3, .null, .null, .num (6 / 10)⟩]

/-- The imputed result of `c5t`: nulls replaced by the column medians
(temp_c median 2, precip_mm median 7, renewable_share median 0.5), and the
entirely-null `humidity` left null. -/
def c5tExpected : List EnrichedRow :=
  [⟨"S1", 1, none, none, "A", .null, .null, some 1, none, some 7, some (4 / 10), none⟩,
   ⟨"S2", 2, none, none, "A", .null, .null, some 2, none, some 7, some (1 / 2), none⟩,
   ⟨"S3", 3, none, none, "A", .null, .null, some 3, none, some 7, some (6 / 10), none⟩]

/-- Joined rows whose raw `renewable_share` holds a non-numeric string. -/
def c5tBad : List JoinedRow :=
  [⟨"S1", 1, none, none, "A", .null, .null, .null, .null, .null, .str "n/a"⟩,
   ⟨"S2", 2, none, none, "A", .null, .null, .null, .null, .null, .num (4 / 10)⟩]

/-- Witness for the amended C5 at concrete inputs: the good table is
imputed exactly as claimed (including the all-null no-op), and the table
with a non-numeric share aborts with the type error. -/
theorem imputer_median_fill_witness :
    (∀ r ∈ c5t, coercible r.renewable_share = true)
    ∧ imputeStep c5t = .ok c5tExpected
    ∧ (∃ out, imputeStep c5t = .ok out ∧ out.length = c5t.length)
    ∧ (∃ r ∈ c5tBad, coercible r.renewable_share = false)
    ∧ imputeStep c5tBad = .error (.typeMismatch "renewable_share") := by
  refine ⟨by decide, by with_unfolding_all rfl, ?_, by decide,
    (imputer_median_fill c5tBad).2 (by decide)⟩
  obtain ⟨out, h1, h2, -⟩ := (imputer_median_fill c5t).1 (by decide)
  exact ⟨out, h1, h2⟩

/-- Weather input of the C5 counterexample (empty: all air-quality rows
join unmatched and default to city "Unknown"). -/
def c5api : List WeatherRow := []

/-- Air-quality input of the C5 counterexample. -/
def c5aq : List AirQualityRow :=
  [⟨"S1", "2025-01-01", .num 50, .null⟩, ⟨"S2", "2025-01-01", .num 60, .null⟩]

/-- Renewable input of the C5 counterexample: the share for "Unknown" is
the non-numeric string "n/a". -/
def c5renew : List RenewRow := [⟨"Unknown", .str "n/a"⟩]

/-- Counterexample to C5 as stated.  The claim says `clean_and_join`
coerces `renewable_share` to numeric (the "n/a" becoming null) and then
replaces every null with the median of the coerced column, never raising;
the source instead computes the fill value as the median of the raw
pre-coercion column, and on this input the run aborts with the
`TypeError` of `Series.median()` instead of returning an imputed table. -/
theorem imputer_median_fill_counterexample :
    clean_and_join c5api c5aq c5renew true = .error (.typeMismatch "renewable_share") := by
  with_unfolding_all rfl

/-! ## Claim theorems: Deduplicator -/

/-- C4: for every input on which `clean_and_join` succeeds, the enriched
table has no two rows sharing the same (station_id, date) key, it equals
the first-occurrence deduplication of the pre-dedup pipeline table, and
every retained row is the first row with its key in that table's order. -/
theorem dedup_unique_first (api : List WeatherRow) (aq : List AirQualityRow)
    (renew : List RenewRow) (inc : Bool) (out : List EnrichedRow)
    (hout : clean_and_join api aq renew inc = .ok out) :
    out.Pairwise (fun a b => rowKey a ≠ rowKey b)
    ∧ ∀ pre, enrichedPreDedup api aq renew inc = .ok pre →
        out = dropDupFirst [] pre
        ∧ ∀ r ∈ out, ∃ l₁ l₂, pre = l₁ ++ r :: l₂ ∧ ∀ x ∈ l₁, rowKey x ≠ rowKey r := by
  have hsplit : ∃ pre, enrichedPreDedup api aq renew inc = .ok pre
      ∧ out = dropDupFirst [] pre := by
    unfold clean_and_join at hout
    cases h : enrichedPreDedup api aq renew inc with
    | error e => rw [h] at hout; cases hout
    | ok pre =>
      rw [h] at hout
      exact ⟨pre, rfl, by cases hout; rfl⟩
  obtain ⟨pre, hpre, rfl⟩ := hsplit
  refine ⟨pairwise_dropDupFirst [] pre, ?_⟩
  intro pre2 hpre2
  rw [hpre] at hpre2
  obtain rfl : pre = pre2 := by cases hpre2; rfl
  refine ⟨rfl, ?_⟩
  intro r hr
  obtain ⟨l₁, l₂, heq, hall⟩ := first_occurrence_dropDupFirst [] pre r hr
  exact ⟨l₁, l₂, heq, fun x hx => (hall x hx).resolve_left (by simp)⟩

/-- Air-quality input of the C4 witness: two rows with the same
(station_id, date) key, differing in `aqi` (null first). -/
def c4aq : List AirQualityRow :=
  [⟨"S1", "2025-01-01", .null, .null⟩, ⟨"S1", "2025-01-01", .num 60, .null⟩]

/-- The enriched table of the C4 witness: one row, the first occurrence
(null `aqi`), city defaulted to "Unknown". -/
def c4out : List EnrichedRow :=
  [⟨"S1", 20250101, none, none, "Unknown", .null, .null, none, none, none, none, none⟩]

/-- Witness for C4 at a concrete duplicate-key input: the run keeps
exactly the first of the two duplicate rows. -/
theorem dedup_unique_first_witness :
    clean_and_join [] c4aq [] true = .ok c4out
      ∧ c4out.Pairwise (fun a b => rowKey a ≠ rowKey b)
      ∧ c4out.map (fun r => r.aqi) = [none] := by
  have h : clean_and_join [] c4aq [] true = .ok c4out := by with_unfolding_all rfl
  exact ⟨h, (dedup_unique_first [] c4aq [] true c4out h).1, rfl⟩

/-! ## Destructuring the clean_and_join pipeline -/

theorem clean_and_join_ok {api : List WeatherRow} {aq : List AirQualityRow}
    {renew : List RenewRow} {inc : Bool} {out : List EnrichedRow}
    (h : clean_and_join api aq renew inc = .ok out) :
    ∃ pre, enrichedPreDedup api aq renew inc = .ok pre ∧ out = dropDupFirst [] pre := by
  unfold clean_and_join at h
  cases hp : enrichedPreDedup api aq renew inc with
  | error e => rw [hp] at h; cases h
  | ok pre =>
    rw [hp] at h
    exact ⟨pre, rfl, by cases h; rfl⟩

theorem enrichedPreDedup_ok {api : List WeatherRow} {aq : List AirQualityRow}
    {renew : List RenewRow} {inc : Bool} {pre : List EnrichedRow}
    (h : enrichedPreDedup api aq renew inc = .ok pre) :
    ∃ apiN aqN imputed, normWeatherRows 0 api = .ok apiN ∧ normAQRows 0 aq = .ok aqN
      ∧ imputeStep (merge2 (merge1 aqN apiN) renew) = .ok imputed
      ∧ pre = fahrenheitStep inc imputed := by
  unfold enrichedPreDedup at h
  cases h1 : normWeatherRows 0 api with
  | error e => rw [h1] at h; cases h
  | ok apiN =>
    rw [h1] at h
    simp only [bind, Except.bind] at h
    cases h2 : normAQRows 0 aq with
    | error e => rw [h2] at h; cases h
    | ok aqN =>
      rw [h2] at h
      simp only [bind, Except.bind] at h
      cases h3 : imputeStep (merge2 (merge1 aqN apiN) renew) with
      | error e => rw [h3] at h; cases h
      | ok imputed =>
        rw [h3] at h
        exact ⟨apiN, aqN, imputed, rfl, rfl, h3, by cases h; rfl⟩

/-! ## Claim theorems: Fahrenheit round-trip -/

/-- C6: in every enriched table produced with Fahrenheit output requested,
a row whose `temp_c` is the non-null value `c` has
`temp_f = round(c * 9/5 + 32, 1)`. -/
theorem fahrenheit_roundtrip (api : List WeatherRow) (aq : List AirQualityRow)
    (renew : List RenewRow) (out : List EnrichedRow)
    (h : clean_and_join api aq renew true = .ok out) :
    ∀ r ∈ out, ∀ c : ℚ, r.temp_c = some c → r.temp_f = some (roundTo1 (c * 9 / 5 + 32)) := by
  obtain ⟨pre, hpre, rfl⟩ := clean_and_join_ok h
  obtain ⟨apiN, aqN, imputed, h1, h2, h3, rfl⟩ := enrichedPreDedup_ok hpre
  intro r hr c hc
  have hr2 : r ∈ fahrenheitStep true imputed := mem_dropDupFirst hr
  simp only [fahrenheitStep, if_true] at hr2
  obtain ⟨r0, hr0, rfl⟩ := List.mem_map.mp hr2
  have hc0 : r0.temp_c = some c := hc
  show r0.temp_c.map c_to_f = _
  rw [hc0]
  rfl

/-- Weather input of the C6 witness. -/
def c6api : List WeatherRow :=
  [⟨"S1", "2025-01-01", some "TestCity", .num 0, .num 0, .num 10, .num 50, .num 0⟩]

/-- Air-quality input of the C6 witness. -/
def c6aq : List AirQualityRow := [⟨"S1", "2025-01-01", .num 50, .num 400⟩]

/-- Renewable input of the C6 witness. -/
def c6renew : List RenewRow := [⟨"TestCity", .num (6 / 10)⟩]

/-- The single enriched row of the C6 witness (10 °C becomes 50.0 °F). -/
def c6row : EnrichedRow :=
  ⟨"S1", 20250101, some 50, some 400, "TestCity", .num 0, .num 0,
   some 10, some 50, some 0, some (6 / 10), some 50⟩

/-- Witness for C6 at a concrete one-row input. -/
theorem fahrenheit_roundtrip_witness :
    clean_and_join c6api c6aq c6renew true = .ok [c6row]
      ∧ ∀ r ∈ ([c6row] : List EnrichedRow), r.temp_f = some 50 := by
  have h : clean_and_join c6api c6aq c6renew true = .ok [c6row] := by
    with_unfolding_all rfl
  refine ⟨h, ?_⟩
  intro r hr
  obtain rfl : r = c6row := List.mem_singleton.mp hr
  have hf := fahrenheit_roundtrip c6api c6aq c6renew [c6row] h c6row
    (List.mem_singleton_self _) 10 rfl
  rw [hf]
  with_unfolding_all rfl

/-! ## Claim theorems: malformed dates -/

theorem normWeatherRows_fail (l : List WeatherRow) (i : Nat)
    (h : ∃ r ∈ l, parseDate r.date = none) :
    ∃ k v, normWeatherRows i l = .error (.malformedDate "api" (i + k) v)
      ∧ ∃ r : WeatherRow, l[k]? = some r ∧ r.date = v ∧ parseDate v = none := by
  induction l generalizing i with
  | nil => simp at h
  | cons x t ih =>
    obtain ⟨r, hr, hbad⟩ := h
    cases hp : parseDate x.date with
    | none => exact ⟨0, x.date, by simp [normWeatherRows, hp], x, by simp, rfl, hp⟩
    | some d =>
      have h2 : ∃ r ∈ t, parseDate r.date = none := by
        rcases List.mem_cons.mp hr with rfl | hr2
        · rw [hp] at hbad; cases hbad
        · exact ⟨r, hr2, hbad⟩
      obtain ⟨k, v, herr, r2, hk, hrd, hpv⟩ := ih (i + 1) h2
      refine ⟨k + 1, v, ?_, r2, by simpa using hk, hrd, hpv⟩
      have hidx : i + 1 + k = i + (k + 1) := by omega
      simp only [normWeatherRows, hp, herr, hidx, Except.map]

theorem normAQRows_fail (l : List AirQualityRow) (i : Nat)
    (h : ∃ r ∈ l, parseDate r.date = none) :
    ∃ k v, normAQRows i l = .error (.malformedDate "aq" (i + k) v)
      ∧ ∃ r : AirQualityRow, l[k]? = some r ∧ r.date = v ∧ parseDate v = none := by
  induction l generalizing i with
  | nil => simp at h
  | cons x t ih =>
    obtain ⟨r, hr, hbad⟩ := h
    cases hp : parseDate x.date with
    | none => exact ⟨0, x.date, by simp [normAQRows, hp], x, by simp, rfl, hp⟩
    | some d =>
      have h2 : ∃ r ∈ t, parseDate r.date = none := by
        rcases List.mem_cons.mp hr with rfl | hr2
        · rw [hp] at hbad; cases hbad
        · exact ⟨r, hr2, hbad⟩
      obtain ⟨k, v, herr, r2, hk, hrd, hpv⟩ := ih (i + 1) h2
      refine ⟨k + 1, v, ?_, r2, by simpa using hk, hrd, hpv⟩
      have hidx : i + 1 + k = i + (k + 1) := by omega
      simp only [normAQRows, hp, herr, hidx, Except.map]

theorem normWeatherRows_ok (l : List WeatherRow) (i : Nat)
    (h : ∀ r ∈ l, parseDate r.date ≠ none) :
    ∃ t, normWeatherRows i l = .ok t := by
  induction l generalizing i with
  | nil => exact ⟨[], rfl⟩
  | cons x t ih =>
    cases hp : parseDate x.date with
    | none => exact absurd hp (h x (List.mem_cons_self _ _))
    | some d =>
      obtain ⟨t2, ht2⟩ := ih (i + 1) (fun r hr => h r (List.mem_cons_of_mem _ hr))
      refine ⟨⟨x.station_id, d, x.city.getD "Unknown", x.lat, x.lon, x.temp_c, x.humidity,
        x.precip_mm⟩ :: t2, ?_⟩
      simp only [normWeatherRows, hp, ht2, Except.map]

/-- C8: an unparseable date in either input table makes `clean_and_join`
abort in the Normalizer with a `MalformedDateError` identifying the
offending row (its table, position and raw value), rather than dropping or
keeping that row. -/
theorem malformed_date_aborts (api : List WeatherRow) (aq : List AirQualityRow)
    (renew : List RenewRow) (inc : Bool)
    (h : (∃ r ∈ api, parseDate r.date = none) ∨ (∃ r ∈ aq, parseDate r.date = none)) :
    ∃ tbl i v, clean_and_join api aq renew inc = .error (.malformedDate tbl i v)
      ∧ parseDate v = none
      ∧ ((tbl = "api" ∧ ∃ r : WeatherRow, api[i]? = some r ∧ r.date = v)
        ∨ (tbl = "aq" ∧ ∃ r : AirQualityRow, aq[i]? = some r ∧ r.date = v)) := by
  by_cases hapi : ∃ r ∈ api, parseDate r.date = none
  · obtain ⟨k, v, herr, r, hk, hrd, hpv⟩ := normWeatherRows_fail api 0 hapi
    rw [Nat.zero_add] at herr
    refine ⟨"api", k, v, ?_, hpv, Or.inl ⟨rfl, r, hk, hrd⟩⟩
    simp only [clean_and_join, enrichedPreDedup, herr, Except.bind, Except.map, bind]
  · have haq : ∃ r ∈ aq, parseDate r.date = none := h.resolve_left hapi
    have hok : ∀ r ∈ api, parseDate r.date ≠ none :=
      fun r hr hbad => hapi ⟨r, hr, hbad⟩
    obtain ⟨apiN, hapiN⟩ := normWeatherRows_ok api 0 hok
    obtain ⟨k, v, herr, r, hk, hrd, hpv⟩ := normAQRows_fail aq 0 haq
    rw [Nat.zero_add] at herr
    refine ⟨"aq", k, v, ?_, hpv, Or.inr ⟨rfl, r, hk, hrd⟩⟩
    simp only [clean_and_join, enrichedPreDedup, hapiN, herr, Except.bind, Except.map, bind]

/-- Air-quality input of the C8 witness, with an unparseable date. -/
def c8aq : List AirQualityRow := [⟨"S1", "not-a-date", .num 50, .null⟩]

/-- Witness for C8 at a concrete input: the run aborts with the
malformed-date error naming table "aq", row 0 and the raw value. -/
theorem malformed_date_aborts_witness :
    clean_and_join [] c8aq [] true = .error (.malformedDate "aq" 0 "not-a-date")
      ∧ ∃ tbl i v, clean_and_join [] c8aq [] true = .error (.malformedDate tbl i v)
        ∧ parseDate v = none
        ∧ ((tbl = "api" ∧ ∃ r : WeatherRow, ([] : List WeatherRow)[i]? = some r ∧ r.date = v)
          ∨ (tbl = "aq" ∧ ∃ r : AirQualityRow, c8aq[i]? = some r ∧ r.date = v)) :=
  ⟨by rfl,
   malformed_date_aborts [] c8aq [] true
     (Or.inr ⟨⟨"S1", "not-a-date", .num 50, .null⟩, by simp [c8aq], by rfl⟩)⟩

/-! ## Claim theorems: alignment classification -/

theorem alignLabel_iff (share aqi : Option ℚ) :
    (alignLabel share aqi = "Aligned"
      ↔ (∃ s, share = some s ∧ (0.5 : ℚ) ≤ s) ∧ (∃ q, aqi = some q ∧ q ≤ 100))
    ∧ (alignLabel share aqi = "Aligned" ∨ alignLabel share aqi = "Needs Improvement")
    ∧ (share = none → alignLabel share aqi = "Needs Improvement") := by
  unfold alignLabel geOptHalf leOpt100
  cases share with
  | none => simp
  | some s =>
    cases aqi with
    | none => simp
    | some q =>
      by_cases h1 : (0.5 : ℚ) ≤ s <;> by_cases h2 : q ≤ 100 <;> simp [h1, h2]

theorem firstShare_spec {rows : List EnrichedRow} {c : String}
    (h : ∃ e ∈ rows, e.city = c) :
    ∃ e ∈ rows, e.city = c ∧ firstShare rows c = e.renewable_share := by
  have hsome : (rows.find? (fun r => r.city = c)).isSome := by
    rw [List.find?_isSome]
    obtain ⟨e, he, hec⟩ := h
    exact ⟨e, he, by simp [hec]⟩
  obtain ⟨e, he⟩ := Option.isSome_iff_exists.mp hsome
  refine ⟨e, List.mem_of_find?_eq_some he, by simpa using List.find?_some he, ?_⟩
  simp [firstShare, he]

theorem city_mem_allCities_of_mem_daily {rows : List EnrichedRow} {r : DailyCityRow}
    (hr : r ∈ ((allCities rows).map (cityBlock rows)).flatten) :
    r.city ∈ allCities rows := by
  obtain ⟨blk, hblk, hrb⟩ := List.mem_flatten.mp hr
  obtain ⟨c, hc, rfl⟩ := List.mem_map.mp hblk
  rw [city_of_mem_cityBlock hrb]
  exact hc

/-- C3: every row of the alignment table is labelled "Aligned" exactly
when the city's `renewable_share` is a value ≥ 0.5 and its `avg_aqi` is a
value ≤ 100; the only other label is "Needs Improvement", and a null
`renewable_share` forces "Needs Improvement" regardless of `avg_aqi`.
The row's `avg_aqi` is that of a daily-rollup row of the same city whose
date is the latest among the city's rollup rows, and its
`renewable_share` is the city's share from the enriched table. -/
theorem alignment_rule (rows : List EnrichedRow) :
    ∀ a ∈ (compute_kpis rows).alignment,
      (a.clean_energy_alignment = "Aligned"
        ↔ (∃ s, a.renewable_share = some s ∧ (0.5 : ℚ) ≤ s)
          ∧ (∃ q, a.avg_aqi = some q ∧ q ≤ 100))
      ∧ (a.clean_energy_alignment = "Aligned" ∨ a.clean_energy_alignment = "Needs Improvement")
      ∧ (a.renewable_share = none → a.clean_energy_alignment = "Needs Improvement")
      ∧ (∃ r ∈ (compute_kpis rows).daily_city, r.city = a.city ∧ r.avg_aqi = a.avg_aqi
          ∧ ∀ r2 ∈ (compute_kpis rows).daily_city, r2.city = a.city → r2.date ≤ r.date)
      ∧ (∃ e ∈ rows, e.city = a.city ∧ a.renewable_share = e.renewable_share) := by
  intro a ha
  simp only [compute_kpis, List.mem_map] at ha
  obtain ⟨r0, hr0, rfl⟩ := ha
  have hr0s : r0 ∈ sortByDate (((allCities rows).map (cityBlock rows)).flatten) :=
    mem_tail1City hr0
  have hr0d : r0 ∈ ((allCities rows).map (cityBlock rows)).flatten :=
    (mem_sortByDate _ _).mp hr0s
  have hiff := alignLabel_iff (firstShare rows r0.city) r0.avg_aqi
  refine ⟨hiff.1, hiff.2.1, hiff.2.2, ?_, ?_⟩
  · refine ⟨r0, hr0d, rfl, rfl, ?_⟩
    intro r2 hr2 hc2
    exact tail1City_latest _ (pairwise_sortByDate _) r0 hr0 r2
      ((mem_sortByDate _ _).mpr hr2) hc2
  · have hc : r0.city ∈ allCities rows := city_mem_allCities_of_mem_daily hr0d
    have hex : ∃ e ∈ rows, e.city = r0.city := by
      have := (mem_sortDedup _ _ _).mp hc
      obtain ⟨e, he, heq⟩ := List.mem_map.mp this
      exact ⟨e, he, heq⟩
    obtain ⟨e, he, hec, hfs⟩ := firstShare_spec hex
    exact ⟨e, he, hec, hfs⟩

/-- Enriched row of the "Aligned" witness city. -/
def c3r1 : EnrichedRow :=
  ⟨"S1", 20250101, some 90, none, "A", .null, .null, none, none, none, some (6 / 10), none⟩

/-- Enriched row of the null-share witness city. -/
def c3r2 : EnrichedRow :=
  ⟨"S2", 20250101, some 90, none, "B", .null, .null, none, none, none, none, none⟩

/-- Input of the C3 witness. -/
def c3Rows : List EnrichedRow := [c3r1, c3r2]

/-- Expected alignment row of city "A". -/
def c3alignA : AlignmentRow := ⟨"A", some 90, some (6 / 10), "Aligned"⟩

/-- Expected alignment row of city "B". -/
def c3alignB : AlignmentRow := ⟨"B", some 90, none, "Needs Improvement"⟩

/-- Witness for C3: share 0.6 with latest avg_aqi 90 is "Aligned"; a null
share is "Needs Improvement" despite the same avg_aqi. -/
theorem alignment_rule_witness :
    (compute_kpis c3Rows).alignment = [c3alignA, c3alignB]
      ∧ c3alignA.clean_energy_alignment = "Aligned"
      ∧ c3alignB.renewable_share = none
      ∧ c3alignB.clean_energy_alignment = "Needs Improvement" := by
  have heq : (compute_kpis c3Rows).alignment = [c3alignA, c3alignB] := by
    with_unfolding_all rfl
  have hA : c3alignA ∈ (compute_kpis c3Rows).alignment := by
    rw [heq]; exact List.mem_cons_self _ _
  have hB : c3alignB ∈ (compute_kpis c3Rows).alignment := by
    rw [heq]; simp
  have h1 := alignment_rule c3Rows c3alignA hA
  have h2 := alignment_rule c3Rows c3alignB hB
  exact ⟨heq,
    h1.1.mpr ⟨⟨6 / 10, rfl, by norm_num⟩, ⟨90, rfl, by norm_num⟩⟩,
    rfl,
    h2.2.2.1 rfl⟩

/-! ## Claim theorems: rolling CO₂ mean (corrected claim) -/

theorem trailWindow_len_min (A : List ℚ) (i : Nat) (hi : i < A.length) :
    (trailWindow A i).length = min (i + 1) 7 := by
  unfold trailWindow
  rw [List.length_take, List.length_reverse, length_take_of_lt A i hi]
  exact Nat.min_comm 7 (i + 1)

theorem rolling7_map_some_getD (A : List ℚ) (i : Nat) (hi : i < A.length) :
    (rolling7 (A.map some)).getD i none
      = some ((trailWindow A i).sum / ((trailWindow A i).length : ℚ)) := by
  have hi2 : i < (A.map some).length := by simpa using hi
  rw [List.getD_eq_getElem?_getD, getElem?_rolling7 _ i hi2]
  rw [← List.map_take, ← List.map_drop]
  have hpos : 0 < ((A.take (i + 1)).drop (i + 1 - 7)).length := by
    rw [List.length_drop, length_take_of_lt A i hi]
    omega
  rw [meanOpt_map_some _ (List.length_pos.mp hpos)]
  simp only [Option.getD_some]
  rw [trailWindow_sum A i hi, trailWindow_length A i hi]

theorem diffFill0_map_some_getD (A : List ℚ) (i : Nat) (hi : i < A.length) :
    (diffFill0 (rolling7 (A.map some))).getD i 0
      = (if i = 0 then 0
         else (trailWindow A i).sum / ((trailWindow A i).length : ℚ)
           - (trailWindow A (i - 1)).sum / ((trailWindow A (i - 1)).length : ℚ)) := by
  have hlen : i < (rolling7 (A.map some)).length := by
    rw [length_rolling7]; simpa using hi
  rw [List.getD_eq_getElem?_getD, getElem?_diffFill0 _ i hlen]
  simp only [Option.getD_some]
  by_cases h0 : i = 0
  · simp [h0]
  · rw [if_neg h0, if_neg h0]
    rw [rolling7_map_some_getD A i hi, rolling7_map_some_getD A (i - 1) (by omega)]

/-- C1 (amended): in the daily city rollup, the rows of one city are
sorted by ascending date, and whenever the city's `avg_co2_ppm` sequence
is entirely non-null (given as the list `A`), `co2_7d_ma` at position `i`
equals the mean of the trailing window of the last `min(i+1, 7) ≥ 1`
average values (in particular it is non-null), while `co2_7d_delta` is
0.0 at the first row and elsewhere the first difference of these trailing
means.  (As stated, the claim fails when a (city, date) group has no
non-null `co2_ppm`: the rolling mean is then null — see the
counterexample.) -/
theorem rolling_co2_trailing_mean (rows : List EnrichedRow) (c : String) (A : List ℚ)
    (hA : (cityDaily rows c).map (fun r => r.avg_co2_ppm) = A.map some) :
    (cityDaily rows c).Pairwise (fun a b => a.date < b.date)
    ∧ ∀ (i : Nat) (r : DailyCityRow), (cityDaily rows c)[i]? = some r →
        0 < (trailWindow A i).length
        ∧ (trailWindow A i).length = min (i + 1) 7
        ∧ r.co2_7d_ma = some ((trailWindow A i).sum / ((trailWindow A i).length : ℚ))
        ∧ r.co2_7d_delta = (if i = 0 then 0
            else (trailWindow A i).sum / ((trailWindow A i).length : ℚ)
              - (trailWindow A (i - 1)).sum / ((trailWindow A (i - 1)).length : ℚ)) := by
  rw [cityDaily_eq] at hA ⊢
  by_cases hc : c ∈ allCities rows
  case neg =>
    rw [if_neg hc] at hA ⊢
    refine ⟨List.Pairwise.nil, ?_⟩
    intro i r hr
    simp at hr
  case pos =>
    rw [if_pos hc] at hA ⊢
    have havg : cityAvgCo2 rows c = A.map some := by
      rw [← map_avgCo2_cityBlock rows c, hA]
    have hlenA : (cityDates rows c).length = A.length := by
      have := congrArg List.length havg
      simpa [length_cityAvgCo2] using this
    have hgetDdate : ∀ (j : Nat) (hj : j < (cityDates rows c).length),
        (cityDates rows c).getD j 0 = (cityDates rows c).get ⟨j, hj⟩ := by
      intro j hj
      rw [List.getD_eq_getElem?_getD, List.getElem?_eq_getElem hj]
      rfl
    constructor
    · have hdsort : (cityDates rows c).Pairwise (fun x y => natLtB x y = true) :=
        pairwise_sortDedup _ natLtB_trans natLtB_tricho _
      rw [List.pairwise_iff_getElem] at hdsort
      simp only [cityBlock]
      rw [List.pairwise_map]
      refine List.Pairwise.imp_of_mem ?_ (List.pairwise_lt_range _)
      intro x y hx hy hxy
      have hxr : x < (cityDates rows c).length := List.mem_range.mp hx
      have hyr : y < (cityDates rows c).length := List.mem_range.mp hy
      show (cityDates rows c).getD x 0 < (cityDates rows c).getD y 0
      rw [hgetDdate x hxr, hgetDdate y hyr]
      have := hdsort x y hxr hyr hxy
      simpa [natLtB] using this
    · intro i r hr
      have hi : i < (cityDates rows c).length := by
        have h1 : i < (cityBlock rows c).length := by
          by_contra hcon
          rw [List.getElem?_eq_none (by omega)] at hr
          cases hr
        rwa [length_cityBlock] at h1
      have hiA : i < A.length := by omega
      rw [getElem?_cityBlock rows c i hi] at hr
      obtain rfl : _ = r := by injection hr
      rw [havg]
      refine ⟨?_, trailWindow_len_min A i hiA, ?_, ?_⟩
      · rw [trailWindow_len_min A i hiA]; omega
      · show (rolling7 (A.map some)).getD i none = _
        exact rolling7_map_some_getD A i hiA
      · show (diffFill0 (rolling7 (A.map some))).getD i 0 = _
        exact diffFill0_map_some_getD A i hiA

/-- A single enriched row with a null `co2_ppm`. -/
def c1cexRows : List EnrichedRow :=
  [⟨"S1", 20250101, some 50, none, "A", .null, .null, none, none, none, none, none⟩]

/-- Counterexample to C1 as stated: the claim says `co2_7d_ma` uses at
least one observation and is never null, but when a (city, date) group has
only null `co2_ppm` the group average is NaN and the rolling window holds
no observation, so the source (rolling with `min_periods=1` counting only
non-null values) produces a null `co2_7d_ma`. -/
theorem rolling_co2_counterexample :
    ((compute_kpis c1cexRows).daily_city.map (fun r => r.co2_7d_ma)) = [none] := by
  with_unfolding_all rfl

/-- The 7-day single-city input of the rolling-window witness
(`avg_co2_ppm` values 400, 402, ..., 412). -/
def c1Rows : List EnrichedRow :=
  [⟨"S1", 20250101, some 50, some 400, "TestCity", .num 0, .num 0, some 10, some 50, some 0, some (6 / 10), some 50⟩,
   ⟨"S1", 20250102, some 60, some 402, "TestCity", .num 0, .num 0, some 10, some 50, some 0, some (6 / 10), some 50⟩,
   ⟨"S1", 20250103, some 70, some 404, "TestCity", .num 0, .num 0, some 10, some 50, some 0, some (6 / 10), some 50⟩,
   ⟨"S1", 20250104, some 80, some 406, "TestCity", .num 0, .num 0, some 10, some 50, some 0, some (6 / 10), some 50⟩,
   ⟨"S1", 20250105, some 90, some 408, "TestCity", .num 0, .num 0, some 10, some 50, some 0, some (6 / 10), some 50⟩,
   ⟨"S1", 20250106, some 100, some 410, "TestCity", .num 0, .num 0, some 10, some 50, some 0, some (6 / 10), some 50⟩,
   ⟨"S1", 20250107, some 110, some 412, "TestCity", .num 0, .num 0, some 10, some 50, some 0, some (6 / 10), some 50⟩]

/-- The city's average CO₂ sequence in the witness. -/
def c1A : List ℚ := [400, 402, 404, 406, 408, 410, 412]

/-- Day 1 of the witness rollup. -/
def c1r0 : DailyCityRow := ⟨"TestCity", 20250101, some 50, some 400, some 400, 0⟩

/-- Day 2 of the witness rollup. -/
def c1r1 : DailyCityRow := ⟨"TestCity", 20250102, some 60, some 402, some 401, 1⟩

/-- Day 7 of the witness rollup. -/
def c1r6 : DailyCityRow := ⟨"TestCity", 20250107, some 110, some 412, some 406, 1⟩

/-- Witness for the amended C1 at the spec's example: with the seven
consecutive daily averages 400..412, day 7 has `co2_7d_ma = 406.0`,
day 1 has `co2_7d_delta = 0.0`, and day 2's delta is non-negative. -/
theorem rolling_co2_trailing_mean_witness :
    ((cityDaily c1Rows "TestCity").map (fun r => r.avg_co2_ppm) = c1A.map some)
    ∧ ((cityDaily c1Rows "TestCity")[6]? = some c1r6
        ∧ c1r6.co2_7d_ma = some ((trailWindow c1A 6).sum / ((trailWindow c1A 6).length : ℚ))
        ∧ c1r6.co2_7d_ma = some 406)
    ∧ ((cityDaily c1Rows "TestCity")[0]? = some c1r0 ∧ c1r0.co2_7d_delta = 0)
    ∧ ((cityDaily c1Rows "TestCity")[1]? = some c1r1 ∧ 0 ≤ c1r1.co2_7d_delta) := by
  have hA : (cityDaily c1Rows "TestCity").map (fun r => r.avg_co2_ppm) = c1A.map some := by
    with_unfolding_all rfl
  have h := rolling_co2_trailing_mean c1Rows "TestCity" c1A hA
  have h6 : (cityDaily c1Rows "TestCity")[6]? = some c1r6 := by with_unfolding_all rfl
  have h0 : (cityDaily c1Rows "TestCity")[0]? = some c1r0 := by with_unfolding_all rfl
  have h1 : (cityDaily c1Rows "TestCity")[1]? = some c1r1 := by with_unfolding_all rfl
  refine ⟨hA, ⟨h6, (h.2 6 c1r6 h6).2.2.1, rfl⟩, ⟨h0, ?_⟩, ⟨h1, by norm_num [c1r1]⟩⟩
  have hd := (h.2 0 c1r0 h0).2.2.2
  simpa using hd
